import Mathlib

/-!
Verification of the cloud-files-web encrypted storage client.

This file gives a shallow embedding of the core of the repository:
  - the URL-safe base64 transport encoding (src/lib/e2ee.ts, bytesToBase64 and
    base64ToBytes),
  - the byte-level AES-GCM framing used by encryptBytes and decryptBytes
    (src/lib/e2ee.ts),
  - the JPEG metadata stripper (src/lib/e2ee.ts, stripFileMetadata and
    stripJPEGExif),
  - an idealized (Dolev-Yao style) model of the password-protected sharing
    protocol (src/lib/notes.ts createNoteShare and decryptSharedNote, and the
    crypto part of handleAccess in src/app/share/page.tsx),
  - the encrypted manifest store and its mutation operations
    (src/lib/manifest.ts).

Bytes are modelled as lists of natural numbers (each below 256 where a
Uint8Array is meant).  Asynchronous fallible code is modelled with Option
and Except; module-level mutable caches are modelled by explicit state
passing; the network (upload success or abort) is a boolean parameter.
-/

namespace CloudFiles

abbrev Bytes := List Nat

/-! ### URL-safe base64 (src/lib/e2ee.ts lines 32-64) -/

/-- The standard base64 alphabet used by btoa and atob. -/
def stdAlphabetChars : List Char :=
  "ABCDEFGHIJKLMNOPQRSTUVWXYZabcdefghijklmnopqrstuvwxyz0123456789+/".data

/-- Character of the standard alphabet at a sextet value. -/
def stdChar (n : Nat) : Char := stdAlphabetChars.getD n 'A'

/-- Value of a standard base64 character, none if it is not in the alphabet. -/
def stdCharToSextet (c : Char) : Option Nat :=
  stdAlphabetChars.findIdx? (fun d => d = c)

/-- Model of btoa: bytes to standard base64 characters with padding.
Each group of three bytes becomes four sextets; a trailing group of one or
two bytes is padded with one or two equality signs. -/
def btoaChars : List Nat → List Char
  | [] => []
  | [b1] => [stdChar (b1 / 4), stdChar (b1 % 4 * 16), '=', '=']
  | [b1, b2] => [stdChar (b1 / 4), stdChar (b1 % 4 * 16 + b2 / 16), stdChar (b2 % 16 * 4), '=']
  | b1 :: b2 :: b3 :: rest =>
      stdChar (b1 / 4) :: stdChar (b1 % 4 * 16 + b2 / 16) ::
        stdChar (b2 % 16 * 4 + b3 / 64) :: stdChar (b3 % 64) :: btoaChars rest

/-- The sextet stream of the encoding, without padding.  Used to state the
round-trip lemmas; btoaChars is this stream rendered to characters plus
padding. -/
def b64Sextets : List Nat → List Nat
  | [] => []
  | [b1] => [b1 / 4, b1 % 4 * 16]
  | [b1, b2] => [b1 / 4, b1 % 4 * 16 + b2 / 16, b2 % 16 * 4]
  | b1 :: b2 :: b3 :: rest =>
      b1 / 4 :: (b1 % 4 * 16 + b2 / 16) :: (b2 % 16 * 4 + b3 / 64) :: b3 % 64 :: b64Sextets rest

/-- The replacement regexes of bytesToBase64: plus becomes dash, slash becomes
underscore (the equality signs are removed separately). -/
def stdToUrlChar (c : Char) : Char :=
  if c = '+' then '-' else if c = '/' then '_' else c

/-- The reverse replacement done by base64ToBytes before calling atob. -/
def urlToStdChar (c : Char) : Char :=
  if c = '-' then '+' else if c = '_' then '/' else c

/-- bytesToBase64 (src/lib/e2ee.ts lines 32-38): btoa, then the URL-safe
replacements, then removal of every equality sign (the replace regex is
global, which is exactly a filter). -/
def bytesToBase64 (bytes : Bytes) : String :=
  ⟨((btoaChars bytes).map stdToUrlChar).filter (fun c => c ≠ '=')⟩

/-- Value of one hexadecimal digit. -/
def hexDigitVal (c : Char) : Option Nat :=
  if '0' ≤ c ∧ c ≤ '9' then some (c.toNat - '0'.toNat)
  else if 'a' ≤ c ∧ c ≤ 'f' then some (c.toNat - 'a'.toNat + 10)
  else if 'A' ≤ c ∧ c ≤ 'F' then some (c.toNat - 'A'.toNat + 10)
  else none

/-- Model of decodeURIComponent restricted to what the proofs exercise:
percent escapes of single code units are decoded, strings without a percent
sign are returned unchanged, malformed escapes fail.  (The builtin
additionally recombines multi-byte UTF-8 escapes; the base64url alphabet is
pure ASCII so that case never arises here.) -/
def percentDecode : List Char → Option (List Char)
  | [] => some []
  | '%' :: h1 :: h2 :: rest2 =>
      match hexDigitVal h1, hexDigitVal h2 with
      | some a, some b => (percentDecode rest2).map (fun t => Char.ofNat (16 * a + b) :: t)
      | _, _ => none
  | ['%', _] => none
  | ['%'] => none
  | c :: rest => (percentDecode rest).map (fun t => c :: t)

/-- The forgiving-base64 padding removal of atob: at most two trailing
equality signs are dropped. -/
def dropPadding (cs : List Char) : List Char :=
  match cs.reverse with
  | c1 :: c2 :: rest =>
      if c1 = '=' then (if c2 = '=' then rest.reverse else (c2 :: rest).reverse) else cs
  | c1 :: rest => if c1 = '=' then rest.reverse else cs
  | [] => cs

/-- Sextet values of a character list, failing on a character outside the
standard alphabet (atob throws there). -/
def decodeSextetChars : List Char → Option (List Nat)
  | [] => some []
  | c :: rest =>
      match stdCharToSextet c, decodeSextetChars rest with
      | some v, some vs => some (v :: vs)
      | _, _ => none

/-- Inverse of the sextet grouping: four sextets back to three bytes, with
the shorter final groups of atob. -/
def b64DecodeCore : List Nat → Bytes
  | [] => []
  | [_] => []
  | [s1, s2] => [s1 * 4 + s2 / 16]
  | [s1, s2, s3] => [s1 * 4 + s2 / 16, s2 % 16 * 16 + s3 / 4]
  | s1 :: s2 :: s3 :: s4 :: rest =>
      (s1 * 4 + s2 / 16) :: (s2 % 16 * 16 + s3 / 4) :: (s3 % 4 * 64 + s4) :: b64DecodeCore rest

/-- Model of atob: length must be a multiple of four (the caller pads),
up to two trailing equality signs are dropped, a remaining length of one
modulo four or a character outside the alphabet is an error. -/
def atobBytes (cs : List Char) : Option Bytes :=
  if cs.length % 4 ≠ 0 then none
  else if (dropPadding cs).length % 4 = 1 then none
  else (decodeSextetChars (dropPadding cs)).map b64DecodeCore

/-- base64ToBytes (src/lib/e2ee.ts lines 41-64).  The source first rejects a
falsy argument (so the empty string throws), URL-decodes, replaces the
URL-safe characters back, pads with equality signs to a multiple of four and
calls atob.  Thrown errors are modelled as none. -/
def base64ToBytes (s : String) : Option Bytes :=
  if s.data = [] then none
  else
    (percentDecode s.data).bind (fun t =>
      atobBytes (t.map urlToStdChar
        ++ List.replicate ((4 - (t.map urlToStdChar).length % 4) % 4) '='))

/-- Model of the split on a dot performed on a share token
(String.prototype.split with separator "."). -/
def splitOnDot : List Char → List (List Char)
  | [] => [[]]
  | c :: rest =>
      if c = '.' then [] :: splitOnDot rest
      else
        match splitOnDot rest with
        | [] => [[c]]
        | p :: ps => (c :: p) :: ps

/-- The unreserved characters of encodeURIComponent. -/
def isURIUnreserved (c : Char) : Bool :=
  c.isAlpha || c.isDigit ||
    c = '-' || c = '_' || c = '.' || c = '!' || c = '~' || c = '*' || c = '\'' || c = '(' || c = ')'

/-- Model of encodeURIComponent on ASCII input: unreserved characters pass
through, anything else is percent-escaped. -/
def uriComponentEncode (cs : List Char) : List Char :=
  cs.flatMap (fun c =>
    if isURIUnreserved c then [c]
    else ['%', stdChar (c.toNat / 16 % 64), stdChar (c.toNat % 16)])

/-! ### Byte-level AES-GCM framing (src/lib/e2ee.ts lines 311-339)

encryptBytes and decryptBytes call WebCrypto AES-GCM.  The framing done by
the repository (generate a 12-byte nonce, prefix it to the ciphertext, on
decrypt slice the first 12 bytes off as the nonce) is modelled exactly; the
AES-GCM core is modelled as a stream cipher with an appended 16-byte
authentication tag.  The keystream and tag functions below are arbitrary
concrete stand-ins: the round-trip theorem depends only on xor being an
involution and the tag being a function of key, nonce and ciphertext, which
is true of the real AES-GCM as well. -/

/-- Stand-in for the AES-GCM keystream byte at a given position. -/
def gcmKeystreamByte (key iv : Bytes) (i : Nat) : Nat :=
  (key.foldl (fun a b => a * 31 + b) 7 + iv.foldl (fun a b => a * 131 + b) 11 + 17 * i) % 256

/-- Xor a byte list against the keystream starting at position i. -/
def gcmXor (key iv : Bytes) : Nat → Bytes → Bytes
  | _, [] => []
  | i, b :: rest => (b ^^^ gcmKeystreamByte key iv i) :: gcmXor key iv (i + 1) rest

/-- Stand-in for the 16-byte AES-GCM authentication tag. -/
def gcmTag (key iv ct : Bytes) : Bytes :=
  (List.range 16).map
    (fun j => (gcmKeystreamByte key iv (ct.length + j) + ct.foldl (fun a b => a * 33 + b) 5) % 256)

/-- AES-GCM encryption core: ciphertext followed by the tag. -/
def gcmSeal (key iv plain : Bytes) : Bytes :=
  gcmXor key iv 0 plain ++ gcmTag key iv (gcmXor key iv 0 plain)

/-- AES-GCM decryption core: check length and tag, then unxor the ciphertext
part (everything except the final 16-byte tag).  Tag failure is an
AuthenticationError, modelled as none. -/
def gcmOpen (key iv data : Bytes) : Option Bytes :=
  if data.length < 16 then none
  else if data.drop (data.length - 16) = gcmTag key iv (data.take (data.length - 16)) then
    some (gcmXor key iv 0 (data.take (data.length - 16)))
  else none

/-- encryptBytes (src/lib/e2ee.ts lines 311-325): a fresh 12-byte nonce
(passed here as the iv argument) is prefixed to the AES-GCM output. -/
def encryptBytes (key : Bytes) (iv : Bytes) (data : Bytes) : Bytes :=
  iv ++ gcmSeal key iv data

/-- decryptBytes (src/lib/e2ee.ts lines 328-339): the first 12 bytes are the
nonce, the rest is the AES-GCM payload. -/
def decryptBytes (key : Bytes) (encryptedData : Bytes) : Option Bytes :=
  gcmOpen key (encryptedData.take 12) (encryptedData.drop 12)

/-! ### JPEG metadata stripping (src/lib/e2ee.ts lines 87-163) -/

/-- The scanning loop of stripJPEGExif.  The index i and the accumulated
output follow the source exactly; out-of-range reads yield 0, matching the
coercion of undefined through the bit operations and through the final
Uint8Array construction in JavaScript. -/
def stripLoop (data : Bytes) : Nat → Bytes → Bytes
  | i, acc =>
    if h : i < data.length - 1 then
      let b0 := data.getD i 0
      let b1 := data.getD (i + 1) 0
      if b0 = 0xFF ∧ b1 ≠ 0x00 then
        if 0xE0 ≤ b1 ∧ b1 ≤ 0xEF then
          -- APP markers contain EXIF: skip the segment
          stripLoop data (i + 2 + (data.getD (i + 2) 0 * 256 + data.getD (i + 3) 0)) acc
        else if b1 = 0xFE then
          -- COM marker: skip
          stripLoop data (i + 2 + (data.getD (i + 2) 0 * 256 + data.getD (i + 3) 0)) acc
        else if b1 = 0xDA then
          -- SOS marker: copy everything from here and stop
          acc ++ data.drop i
        else if b1 = 0xD9 then
          -- EOI marker
          acc ++ [0xFF, 0xD9]
        else
          -- keep other markers
          if b1 ≠ 0x00 ∧ b1 ≠ 0x01 ∧ b1 ≠ 0xD0 ∧ b1 ≠ 0xD1 ∧ b1 ≠ 0xD2 ∧ b1 ≠ 0xD3 ∧
              b1 ≠ 0xD4 ∧ b1 ≠ 0xD5 ∧ b1 ≠ 0xD6 ∧ b1 ≠ 0xD7 then
            let len := data.getD (i + 2) 0 * 256 + data.getD (i + 3) 0
            stripLoop data (i + 2 + len)
              (acc ++ [b0, b1] ++ (List.range len).map (fun j => data.getD (i + 2 + j) 0))
          else
            stripLoop data (i + 2) (acc ++ [b0, b1])
      else
        stripLoop data (i + 1) acc
    else acc
termination_by i _ => data.length - i
decreasing_by all_goals omega

/-- stripJPEGExif (src/lib/e2ee.ts lines 104-163): emit the SOI marker and
scan the rest from offset 2. -/
def stripJPEGExif (data : Bytes) : Bytes :=
  stripLoop data 2 [0xFF, 0xD8]

/-- stripFileMetadata (src/lib/e2ee.ts lines 87-101).  The File argument is
modelled by its declared mime type and its bytes; only a file declared as,
and magic-numbered as, JPEG is processed, everything else passes through. -/
def stripFileMetadata (mimeType : String) (data : Bytes) : Bytes :=
  if mimeType = "image/jpeg" ∧ data.getD 0 0 = 0xFF ∧ data.getD 1 0 = 0xD8 then
    stripJPEGExif data
  else data

/-! ### Idealized model of the sharing protocol

createNoteShare and decryptSharedNote (src/lib/notes.ts lines 370-465) and
the crypto part of handleAccess (src/app/share/page.tsx) combine PBKDF2 key
derivation with AES-GCM.  Their security-relevant claims (a wrong password
always fails) hold of authenticated encryption as an ideal functionality,
not of any concrete toy cipher, so this part of the development uses a
symbolic (Dolev-Yao) model: a ciphertext is a term recording the deriving
password, the salt, the nonce and the plaintext, and opening succeeds
exactly when the same password and salt are supplied.  PBKDF2 is determinate
in password and salt, so a derived key is identified with that pair.

The base64url and dot-separated framing of the token is proved lossless on
the concrete byte level elsewhere in this file; here a token is the list of
segments produced by the split on the dot, each segment already decoded. -/

/-- An inner encrypted blob whose plaintext is raw bytes: the file content
key and nonce that createShare encrypts separately under the share key. -/
structure InnerEnc where
  iv : Bytes
  password : String
  keySalt : Bytes
  plain : Bytes
deriving DecidableEq

/-- Plaintext universe of the outer bundle encryption: the JSON note bundle
of createNoteShare, the JSON file bundle of createShare, or plain bytes. -/
inductive SPlain where
  | bytes (b : Bytes)
  | noteJson (v : Nat) (title content : String) (tags : List String)
  | fileJson (v : Nat) (fileName mimeType presignedUrl : String)
      (encFileKey encFileNonce : InnerEnc)
deriving DecidableEq

/-- A byte string as seen by the share-resolution code: either concrete raw
bytes, or the nonce-prefixed AES-GCM encryption of a plaintext under the key
derived from a password and salt. -/
inductive SymBytes where
  | raw (bytes : Bytes)
  | ivCt (iv : Bytes) (password : String) (keySalt : Bytes) (plain : SPlain)
deriving DecidableEq

/-- Authenticated decryption of a nonce-prefixed blob under the key derived
from the given password and salt.  Only a genuine encryption under the same
derived key authenticates; everything else is an AuthenticationError,
modelled as none. -/
def gcmOpenSym (password : String) (salt : Bytes) : SymBytes → Option SPlain
  | SymBytes.raw _ => none
  | SymBytes.ivCt _ pw ks plain =>
      if pw = password ∧ ks = salt then some plain else none

/-- Opening one of the separately encrypted key-material blobs
(decryptBytes in the share page). -/
def openInnerEnc (password : String) (salt : Bytes) (e : InnerEnc) : Option Bytes :=
  if e.password = password ∧ e.keySalt = salt then some e.plain else none

/-- A note as returned by getNote (src/lib/notes.ts lines 13-22). -/
structure Note where
  id : String
  title : String
  content : String
  createdAt : String
  updatedAt : String
  isPinned : Bool
  tags : List String
  color : Option String
deriving DecidableEq

/-- The visible fields recovered by decryptSharedNote. -/
structure SharedNoteView where
  title : String
  content : String
  tags : List String
deriving DecidableEq

/-- createNoteShare (src/lib/notes.ts lines 370-422), applied to a resolved
note.  A fresh salt and nonce are random inputs, passed as parameters.  The
result is the token: base64url of the salt, a dot, base64url of the
nonce-prefixed encryption of the version-1 note bundle; here the two
segments post-split and post-decode. -/
def createNoteShare (note : Note) (sharePassword : String) (salt iv : Bytes) : List SymBytes :=
  [SymBytes.raw salt,
   SymBytes.ivCt iv sharePassword salt (SPlain.noteJson 1 note.title note.content note.tags)]

/-- decryptSharedNote (src/lib/notes.ts lines 425-465): split must give
exactly two parts, the first is the salt, the second decrypts under the key
derived from the password and that salt, the version field must be 1.
Every thrown error is caught and turned into null, modelled as none. -/
def decryptSharedNote (parts : List SymBytes) (password : String) : Option SharedNoteView :=
  match parts with
  | [SymBytes.raw salt, dataSeg] =>
      match gcmOpenSym password salt dataSeg with
      | some (SPlain.noteJson v title content tags) =>
          if v = 1 then some ⟨title, content, tags⟩ else none
      | _ => none
  | _ => none

/-- The data recovered by the crypto part of handleAccess for a file share. -/
structure FileShareView where
  fileName : String
  mimeType : String
  presignedUrl : String
  fileKey : Bytes
  fileNonce : Bytes
deriving DecidableEq

/-- The crypto prefix of handleAccess for file shares (src/app/share/page.tsx
lines 154-195): split into exactly two parts, derive the share key, decrypt
the bundle, reject a version other than 1, then decrypt the file key and
nonce.  Thrown errors surface as the error step, modelled as none. -/
def resolveFileShare (parts : List SymBytes) (password : String) : Option FileShareView :=
  match parts with
  | [SymBytes.raw salt, encInner] =>
      match gcmOpenSym password salt encInner with
      | some (SPlain.fileJson v fileName mimeType presignedUrl encKey encNonce) =>
          if v = 1 then
            match openInnerEnc password salt encKey, openInnerEnc password salt encNonce with
            | some k, some n => some ⟨fileName, mimeType, presignedUrl, k, n⟩
            | _, _ => none
          else none
      | _ => none
  | _ => none

/-! ### The encrypted manifest store (src/lib/manifest.ts)

The three module-level caches (manifestCache, masterKeyCache and the
sessionStorage copy) and the remote object store are gathered into one
explicit state record.  The master key value never influences the store
logic (encryption is modelled at the object level), so only its presence is
kept.  Each mutation takes the clock value (new Date().toISOString()) and
the outcome of the network upload as parameters; a failed or aborted upload
is the uploadOk = false case, where uploadToStorage throws. -/

/-- File record of the manifest (EncryptedFileInfo, src/lib/e2ee.ts
lines 17-29).  The optional isFavorite is modelled as a Bool, absence as
false, matching its uses under JavaScript truthiness. -/
structure EncryptedFileInfo where
  fileId : String
  fileName : String
  originalSize : Nat
  encryptedSize : Nat
  keyBase64 : String
  nonceBase64 : String
  mimeType : String
  uploadedAt : String
  storageKey : Option String
  folderId : Option String
  isFavorite : Bool
deriving DecidableEq

/-- Folder record (src/lib/manifest.ts lines 23-29). -/
structure Folder where
  id : String
  name : String
  parentId : Option String
  createdAt : String
  color : Option String
deriving DecidableEq

/-- The manifest (src/lib/manifest.ts lines 31-37). -/
structure Manifest where
  version : Nat
  files : List EncryptedFileInfo
  folders : List Folder
  createdAt : String
  updatedAt : String
deriving DecidableEq

/-- A remote object: the encrypted manifest (whose ciphertext under the
master key is determined by the manifest) or an encrypted content blob. -/
inductive RemoteObj where
  | encManifest (m : Manifest)
  | blob (payload : Bytes)
deriving DecidableEq

/-- The remote object store, as an association list from path to object. -/
abbrev Remote := List (String × RemoteObj)

/-- uploadToStorage: replace the object at a path. -/
def putRemote (r : Remote) (key : String) (v : RemoteObj) : Remote :=
  (key, v) :: r.filter (fun p => p.1 ≠ key)

/-- downloadFromStorage: look up a path; absence throws, modelled as none. -/
def getRemote (r : Remote) (key : String) : Option RemoteObj :=
  (r.find? (fun p => decide (p.1 = key))).map Prod.snd

/-- The path of the encrypted manifest (MANIFEST_KEY). -/
def MANIFEST_KEY : String := ".manifest.enc"

/-- The storage path of a content blob. -/
def filesPath (fileId : String) : String := "files/" ++ fileId

/-- The state of one collection store instance plus the remote store. -/
structure StoreState where
  manifestCache : Option Manifest
  masterKeyCache : Bool
  sessionCache : Option Manifest
  remote : Remote
deriving DecidableEq

/-- Errors thrown by the store operations. -/
inductive StoreErr where
  | notUnlocked
  | notFound
  | transport
deriving DecidableEq

deriving instance DecidableEq for Except

/-- Update the first element satisfying the test, as an in-place mutation of
the object returned by Array.prototype.find does. -/
def updateFirst (p : α → Bool) (g : α → α) : List α → List α
  | [] => []
  | x :: xs => if p x then g x :: xs else x :: updateFirst p g xs

/-- getManifest (src/lib/manifest.ts lines 259-270): the in-memory cache,
else the session cache. -/
def getManifest (st : StoreState) : Option Manifest :=
  match st.manifestCache with
  | some m => some m
  | none => st.sessionCache

/-- Insertion into a list sorted by uploadedAt descending (the ISO-8601
strings compare like the dates they denote). -/
def insertByUploadedAt (x : EncryptedFileInfo) : List EncryptedFileInfo → List EncryptedFileInfo
  | [] => [x]
  | y :: ys =>
      if y.uploadedAt ≤ x.uploadedAt then x :: y :: ys else y :: insertByUploadedAt x ys

/-- The sort by uploadedAt descending used by the file listings. -/
def sortByUploadedAt : List EncryptedFileInfo → List EncryptedFileInfo
  | [] => []
  | x :: xs => insertByUploadedAt x (sortByUploadedAt xs)

/-- getFilesInFolder (src/lib/manifest.ts lines 464-471). -/
def getFilesInFolder (st : StoreState) (folderId : Option String) : List EncryptedFileInfo :=
  match getManifest st with
  | none => []
  | some m => sortByUploadedAt (m.files.filter (fun f => f.folderId = folderId))

/-- getFoldersInFolder (src/lib/manifest.ts lines 456-461). -/
def getFoldersInFolder (st : StoreState) (parentId : Option String) : List Folder :=
  match getManifest st with
  | none => []
  | some m => m.folders.filter (fun f => f.parentId = parentId)

/-- addFileToManifest (src/lib/manifest.ts lines 292-310): guard, push the
record, bump updatedAt, encrypt and upload, update the session cache.  On a
failed upload the push has already happened in memory. -/
def addFileToManifest (st : StoreState) (fileInfo : EncryptedFileInfo) (now : String)
    (uploadOk : Bool) : StoreState × Except StoreErr Unit :=
  match st.manifestCache, st.masterKeyCache with
  | some m, true =>
      let m2 := { m with files := m.files ++ [fileInfo], updatedAt := now }
      if uploadOk then
        ({ st with manifestCache := some m2,
                   remote := putRemote st.remote MANIFEST_KEY (RemoteObj.encManifest m2),
                   sessionCache := some m2 }, Except.ok ())
      else
        ({ st with manifestCache := some m2 }, Except.error StoreErr.transport)
  | _, _ => (st, Except.error StoreErr.notUnlocked)

/-- removeFileFromManifest (src/lib/manifest.ts lines 313-331). -/
def removeFileFromManifest (st : StoreState) (fileId : String) (now : String)
    (uploadOk : Bool) : StoreState × Except StoreErr Unit :=
  match st.manifestCache, st.masterKeyCache with
  | some m, true =>
      let m2 := { m with files := m.files.filter (fun f => f.fileId ≠ fileId), updatedAt := now }
      if uploadOk then
        ({ st with manifestCache := some m2,
                   remote := putRemote st.remote MANIFEST_KEY (RemoteObj.encManifest m2),
                   sessionCache := some m2 }, Except.ok ())
      else
        ({ st with manifestCache := some m2 }, Except.error StoreErr.transport)
  | _, _ => (st, Except.error StoreErr.notUnlocked)

/-- removeFilesFromManifest (src/lib/manifest.ts lines 334-354). -/
def removeFilesFromManifest (st : StoreState) (fileIds : List String) (now : String)
    (uploadOk : Bool) : StoreState × Except StoreErr Unit :=
  match st.manifestCache, st.masterKeyCache with
  | some m, true =>
      let m2 := { m with files := m.files.filter (fun f => ¬ f.fileId ∈ fileIds),
                         updatedAt := now }
      if uploadOk then
        ({ st with manifestCache := some m2,
                   remote := putRemote st.remote MANIFEST_KEY (RemoteObj.encManifest m2),
                   sessionCache := some m2 }, Except.ok ())
      else
        ({ st with manifestCache := some m2 }, Except.error StoreErr.transport)
  | _, _ => (st, Except.error StoreErr.notUnlocked)

/-- toggleFileFavorite (src/lib/manifest.ts lines 382-403).  The favorite
flag is flipped in memory before the upload. -/
def toggleFileFavorite (st : StoreState) (fileId : String) (now : String)
    (uploadOk : Bool) : StoreState × Except StoreErr Bool :=
  match st.manifestCache, st.masterKeyCache with
  | some m, true =>
      match m.files.find? (fun f => decide (f.fileId = fileId)) with
      | none => (st, Except.error StoreErr.notFound)
      | some file =>
          let m2 := { m with
            files := updateFirst (fun f => decide (f.fileId = fileId))
                       (fun f => { f with isFavorite := ¬ f.isFavorite }) m.files,
            updatedAt := now }
          if uploadOk then
            ({ st with manifestCache := some m2,
                       remote := putRemote st.remote MANIFEST_KEY (RemoteObj.encManifest m2),
                       sessionCache := some m2 }, Except.ok (¬ file.isFavorite))
          else
            ({ st with manifestCache := some m2 }, Except.error StoreErr.transport)
  | _, _ => (st, Except.error StoreErr.notUnlocked)

/-- createFolder (src/lib/manifest.ts lines 416-446).  The random UUID is a
parameter. -/
def createFolder (st : StoreState) (name : String) (parentId color : Option String)
    (newId now : String) (uploadOk : Bool) : StoreState × Except StoreErr Folder :=
  match st.manifestCache, st.masterKeyCache with
  | some m, true =>
      let folder : Folder := ⟨newId, name, parentId, now, color⟩
      let m2 := { m with folders := m.folders ++ [folder], updatedAt := now }
      if uploadOk then
        ({ st with manifestCache := some m2,
                   remote := putRemote st.remote MANIFEST_KEY (RemoteObj.encManifest m2),
                   sessionCache := some m2 }, Except.ok folder)
      else
        ({ st with manifestCache := some m2 }, Except.error StoreErr.transport)
  | _, _ => (st, Except.error StoreErr.notUnlocked)

/-- moveFileToFolder (src/lib/manifest.ts lines 474-494).  No check that the
target folder exists. -/
def moveFileToFolder (st : StoreState) (fileId : String) (folderId : Option String)
    (now : String) (uploadOk : Bool) : StoreState × Except StoreErr Unit :=
  match st.manifestCache, st.masterKeyCache with
  | some m, true =>
      match m.files.find? (fun f => decide (f.fileId = fileId)) with
      | none => (st, Except.error StoreErr.notFound)
      | some _ =>
          let m2 := { m with
            files := updateFirst (fun f => decide (f.fileId = fileId))
                       (fun f => { f with folderId := folderId }) m.files,
            updatedAt := now }
          if uploadOk then
            ({ st with manifestCache := some m2,
                       remote := putRemote st.remote MANIFEST_KEY (RemoteObj.encManifest m2),
                       sessionCache := some m2 }, Except.ok ())
          else
            ({ st with manifestCache := some m2 }, Except.error StoreErr.transport)
  | _, _ => (st, Except.error StoreErr.notUnlocked)

/-- moveFilesToFolder (src/lib/manifest.ts lines 497-517): all files whose
id is in the set are retargeted. -/
def moveFilesToFolder (st : StoreState) (fileIds : List String) (folderId : Option String)
    (now : String) (uploadOk : Bool) : StoreState × Except StoreErr Unit :=
  match st.manifestCache, st.masterKeyCache with
  | some m, true =>
      let m2 := { m with
        files := m.files.map (fun f => if f.fileId ∈ fileIds then { f with folderId := folderId } else f),
        updatedAt := now }
      if uploadOk then
        ({ st with manifestCache := some m2,
                   remote := putRemote st.remote MANIFEST_KEY (RemoteObj.encManifest m2),
                   sessionCache := some m2 }, Except.ok ())
      else
        ({ st with manifestCache := some m2 }, Except.error StoreErr.transport)
  | _, _ => (st, Except.error StoreErr.notUnlocked)

/-- renameFile (src/lib/manifest.ts lines 581-601). -/
def renameFile (st : StoreState) (fileId newName : String) (now : String)
    (uploadOk : Bool) : StoreState × Except StoreErr Unit :=
  match st.manifestCache, st.masterKeyCache with
  | some m, true =>
      match m.files.find? (fun f => decide (f.fileId = fileId)) with
      | none => (st, Except.error StoreErr.notFound)
      | some _ =>
          let m2 := { m with
            files := updateFirst (fun f => decide (f.fileId = fileId))
                       (fun f => { f with fileName := newName }) m.files,
            updatedAt := now }
          if uploadOk then
            ({ st with manifestCache := some m2,
                       remote := putRemote st.remote MANIFEST_KEY (RemoteObj.encManifest m2),
                       sessionCache := some m2 }, Except.ok ())
          else
            ({ st with manifestCache := some m2 }, Except.error StoreErr.transport)
  | _, _ => (st, Except.error StoreErr.notUnlocked)

/-- renameFolder (src/lib/manifest.ts lines 558-578). -/
def renameFolder (st : StoreState) (folderId newName : String) (now : String)
    (uploadOk : Bool) : StoreState × Except StoreErr Unit :=
  match st.manifestCache, st.masterKeyCache with
  | some m, true =>
      match m.folders.find? (fun f => decide (f.id = folderId)) with
      | none => (st, Except.error StoreErr.notFound)
      | some _ =>
          let m2 := { m with
            folders := updateFirst (fun f => decide (f.id = folderId))
                         (fun f => { f with name := newName }) m.folders,
            updatedAt := now }
          if uploadOk then
            ({ st with manifestCache := some m2,
                       remote := putRemote st.remote MANIFEST_KEY (RemoteObj.encManifest m2),
                       sessionCache := some m2 }, Except.ok ())
          else
            ({ st with manifestCache := some m2 }, Except.error StoreErr.transport)
  | _, _ => (st, Except.error StoreErr.notUnlocked)

/-- deleteFolder (src/lib/manifest.ts lines 520-555): collect the files in
the folder, delete them or move them to the root, remove the folder record
itself, upload.  Subfolders are not visited. -/
def deleteFolder (st : StoreState) (folderId : String) (deleteContents : Bool)
    (now : String) (uploadOk : Bool) : StoreState × Except StoreErr (List String) :=
  match st.manifestCache, st.masterKeyCache with
  | some m, true =>
      let filesInFolder := m.files.filter (fun f => f.folderId = some folderId)
      let deletedFileIds := if deleteContents then filesInFolder.map (fun f => f.fileId) else []
      let newFiles :=
        if deleteContents then m.files.filter (fun f => f.folderId ≠ some folderId)
        else m.files.map (fun f => if f.folderId = some folderId then { f with folderId := none } else f)
      let m2 := { m with files := newFiles,
                         folders := m.folders.filter (fun f => f.id ≠ folderId),
                         updatedAt := now }
      if uploadOk then
        ({ st with manifestCache := some m2,
                   remote := putRemote st.remote MANIFEST_KEY (RemoteObj.encManifest m2),
                   sessionCache := some m2 }, Except.ok deletedFileIds)
      else
        ({ st with manifestCache := some m2 }, Except.error StoreErr.transport)
  | _, _ => (st, Except.error StoreErr.notUnlocked)

/-- addCopySuffix on the character list (src/lib/manifest.ts lines 660-668):
insert the copy tag before the last dot, or append it when there is none. -/
def addCopySuffixChars (cs : List Char) : List Char :=
  match (cs.reverse.findIdx? (fun c => decide (c = '.'))).map (fun k => cs.length - 1 - k) with
  | none => cs ++ " (copy)".data
  | some i => cs.take i ++ " (copy)".data ++ cs.drop i

/-- addCopySuffix (src/lib/manifest.ts lines 660-668). -/
def addCopySuffix (fileName : String) : String :=
  ⟨addCopySuffixChars fileName.data⟩

/-- The new record built inside the copy loop (src/lib/manifest.ts
lines 631-641): the spread of the original record with a fresh id, the
target folder, a fresh timestamp, and the copy suffix exactly when the
target folder equals the source folder.  The content key and nonce fields
ride along unchanged in the spread. -/
def copiedFile (originalFile : EncryptedFileInfo) (target : Option String)
    (newFileId now : String) : EncryptedFileInfo :=
  { originalFile with
    fileId := newFileId,
    folderId := target,
    uploadedAt := now,
    fileName :=
      if target = originalFile.folderId then addCopySuffix originalFile.fileName
      else originalFile.fileName }

/-- The loop body of copyFilesToFolder.  The live file list is threaded
because the source pushes into manifestCache.files while iterating.  The
UUID generator is a function of how many ids were consumed so far.  Returns
the final file list, remote store, new ids, spent id count and the error, if
one was thrown. -/
def copyLoop (target : Option String) (idGen : Nat → String) (now : String) (uploadOk : Bool) :
    List String → List EncryptedFileInfo → Remote → List String → Nat →
      List EncryptedFileInfo × Remote × List String × Nat × Option StoreErr
  | [], files, remote, newIds, k => (files, remote, newIds, k, none)
  | fid :: rest, files, remote, newIds, k =>
      match files.find? (fun f => decide (f.fileId = fid)) with
      | none => copyLoop target idGen now uploadOk rest files remote newIds k
      | some originalFile =>
          match getRemote remote (filesPath fid) with
          | none => (files, remote, newIds, k, some StoreErr.notFound)
          | some encryptedData =>
              if uploadOk then
                let newFileId := idGen k
                let remote2 := putRemote remote (filesPath newFileId) encryptedData
                let newFile := copiedFile originalFile target newFileId now
                copyLoop target idGen now uploadOk rest (files ++ [newFile]) remote2
                  (newIds ++ [newFileId]) (k + 1)
              else (files, remote, newIds, k, some StoreErr.transport)

/-- copyFilesToFolder (src/lib/manifest.ts lines 604-657): loop over the
requested ids, then, when any copy was made, bump updatedAt and upload the
manifest. -/
def copyFilesToFolder (st : StoreState) (fileIds : List String) (target : Option String)
    (idGen : Nat → String) (now : String) (uploadOk : Bool) :
    StoreState × Except StoreErr (List String) :=
  match st.manifestCache, st.masterKeyCache with
  | some m, true =>
      match copyLoop target idGen now uploadOk fileIds m.files st.remote [] 0 with
      | (files2, remote2, _, _, some e) =>
          ({ st with manifestCache := some { m with files := files2 }, remote := remote2 },
           Except.error e)
      | (files2, remote2, newIds, _, none) =>
          if newIds = [] then
            ({ st with manifestCache := some { m with files := files2 }, remote := remote2 },
             Except.ok [])
          else
            let m2 := { m with files := files2, updatedAt := now }
            if uploadOk then
              ({ st with manifestCache := some m2,
                         remote := putRemote remote2 MANIFEST_KEY (RemoteObj.encManifest m2),
                         sessionCache := some m2 }, Except.ok newIds)
            else
              ({ st with manifestCache := some m2, remote := remote2 },
               Except.error StoreErr.transport)
  | _, _ => (st, Except.error StoreErr.notUnlocked)

/-! ## Theorems -/

/-! ### Helper lemmas for the AES-GCM byte framing -/

theorem gcmXor_length (key iv : Bytes) : ∀ (i : Nat) (l : Bytes), (gcmXor key iv i l).length = l.length
  | _, [] => rfl
  | i, _ :: rest => by simp [gcmXor, gcmXor_length key iv (i + 1) rest]

theorem gcmXor_gcmXor (key iv : Bytes) :
    ∀ (i : Nat) (l : Bytes), gcmXor key iv i (gcmXor key iv i l) = l
  | _, [] => rfl
  | i, b :: rest => by
      simp [gcmXor, gcmXor_gcmXor key iv (i + 1) rest, Nat.xor_cancel_right]

theorem gcmTag_length (key iv ct : Bytes) : (gcmTag key iv ct).length = 16 := by
  simp [gcmTag]

/-- Claim C5: for all byte buffers and keys, decryptBytes inverts
encryptBytes under the same key; the 12-byte nonce prefixed to the
ciphertext makes the blob self-describing. -/
theorem decryptBytes_encryptBytes (key iv data : Bytes) (hiv : iv.length = 12) :
    decryptBytes key (encryptBytes key iv data) = some data := by
  unfold decryptBytes encryptBytes
  rw [List.take_left' hiv, List.drop_left' hiv]
  unfold gcmSeal gcmOpen
  have hct : (gcmXor key iv 0 data).length = data.length := gcmXor_length key iv 0 data
  have hlen : (gcmXor key iv 0 data ++ gcmTag key iv (gcmXor key iv 0 data)).length
      = data.length + 16 := by
    simp [List.length_append, hct, gcmTag_length]
  have hsub : (gcmXor key iv 0 data ++ gcmTag key iv (gcmXor key iv 0 data)).length - 16
      = (gcmXor key iv 0 data).length := by omega
  rw [if_neg (by omega), hsub, List.take_left, List.drop_left, if_pos rfl,
    gcmXor_gcmXor key iv 0 data]

theorem decryptBytes_encryptBytes_witness :
    (List.replicate 12 7 : Bytes).length = 12 ∧
      decryptBytes [9, 9] (encryptBytes [9, 9] (List.replicate 12 7) [1, 2, 3]) = some [1, 2, 3] :=
  ⟨by decide, decryptBytes_encryptBytes [9, 9] (List.replicate 12 7) [1, 2, 3] (by decide)⟩

/-! ### The sharing protocol -/

/-- Claim C1: resolving a note-share token with the password used at
creation reproduces the visible fields (title, content, tags) of the note
exactly, and resolving it with any other password fails rather than
returning data. -/
theorem createNoteShare_roundtrip (note : Note) (pw pw2 : String) (salt iv : Bytes) :
    decryptSharedNote (createNoteShare note pw salt iv) pw
      = some ⟨note.title, note.content, note.tags⟩
    ∧ (pw2 ≠ pw → decryptSharedNote (createNoteShare note pw salt iv) pw2 = none) := by
  constructor
  · simp [decryptSharedNote, createNoteShare, gcmOpenSym]
  · intro h
    simp [decryptSharedNote, createNoteShare, gcmOpenSym, Ne.symm h]

theorem createNoteShare_roundtrip_witness :
    ("wrong" : String) ≠ "pw" ∧
      decryptSharedNote
        (createNoteShare ⟨"n1", "title", "body", "d1", "d2", false, ["tag"], none⟩ "pw" [1] [2])
        "wrong" = none :=
  ⟨by decide,
   (createNoteShare_roundtrip ⟨"n1", "title", "body", "d1", "d2", false, ["tag"], none⟩
      "pw" "wrong" [1] [2]).2 (by decide)⟩

/-- Claim C8: a token that does not split on the dot into exactly two parts
is rejected by both share resolutions, and a decrypted bundle whose version
field differs from 1 is rejected rather than interpreted, for the note path
and the file path alike. -/
theorem shareResolution_rejects :
    (∀ (parts : List SymBytes) (pw : String), parts.length ≠ 2 →
        decryptSharedNote parts pw = none ∧ resolveFileShare parts pw = none)
    ∧ (∀ (pw : String) (salt iv : Bytes) (v : Nat) (title content : String)
          (tags : List String), v ≠ 1 →
        decryptSharedNote
          [SymBytes.raw salt, SymBytes.ivCt iv pw salt (SPlain.noteJson v title content tags)]
          pw = none)
    ∧ (∀ (pw : String) (salt iv : Bytes) (v : Nat) (fileName mimeType presignedUrl : String)
          (encKey encNonce : InnerEnc), v ≠ 1 →
        resolveFileShare
          [SymBytes.raw salt,
           SymBytes.ivCt iv pw salt
             (SPlain.fileJson v fileName mimeType presignedUrl encKey encNonce)]
          pw = none) := by
  refine ⟨?_, ?_, ?_⟩
  · intro parts pw h
    match parts, h with
    | [], _ => exact ⟨rfl, rfl⟩
    | [x], _ => cases x <;> exact ⟨rfl, rfl⟩
    | [x, y], h => simp at h
    | x :: y :: z :: rest, _ => cases x <;> exact ⟨rfl, rfl⟩
  · intro pw salt iv v title content tags h
    simp [decryptSharedNote, gcmOpenSym, h]
  · intro pw salt iv v fileName mimeType presignedUrl encKey encNonce h
    simp [resolveFileShare, gcmOpenSym, h]

theorem shareResolution_rejects_witness :
    ([] : List SymBytes).length ≠ 2 ∧
      (decryptSharedNote [] "p" = none ∧ resolveFileShare [] "p" = none) :=
  ⟨by decide, shareResolution_rejects.1 [] "p" (by decide)⟩

/-! ### JPEG metadata stripping -/

/-- Claim C3 (code bug): a truncated JPEG whose APP1 segment announces a
length running past the end of the buffer is not returned unmodified; the
stripper silently drops everything and returns only the two SOI bytes,
corrupting the data instead of falling back to the original bytes. -/
theorem stripFileMetadata_truncated_jpeg_bug :
    stripFileMetadata "image/jpeg" [0xFF, 0xD8, 0xFF, 0xE1, 0x00, 0x10] = [0xFF, 0xD8] ∧
      [0xFF, 0xD8] ≠ [0xFF, 0xD8, 0xFF, 0xE1, 0x00, 0x10] := by
  constructor
  · simp [stripFileMetadata, stripJPEGExif]
    rw [stripLoop]
    norm_num [List.getD]
    rw [stripLoop]
    norm_num
  · decide

/-! ### Helper lemmas for the base64url transport encoding -/

/-- Induction following the three-byte grouping of base64. -/
theorem chunk3_induction (P : List Nat → Prop) (h0 : P []) (h1 : ∀ a, P [a])
    (h2 : ∀ a b, P [a, b]) (h3 : ∀ a b c rest, P rest → P (a :: b :: c :: rest)) :
    ∀ l, P l
  | [] => h0
  | [a] => h1 a
  | [a, b] => h2 a b
  | a :: b :: c :: rest => h3 a b c rest (chunk3_induction P h0 h1 h2 h3 rest)

theorem stdChar_mem (n : Nat) : stdChar n ∈ stdAlphabetChars := by
  unfold stdChar
  rw [List.getD_eq_getElem?_getD]
  cases hx : stdAlphabetChars[n]? with
  | none => simp; decide
  | some c =>
      simp only [Option.getD_some]
      exact List.getElem?_mem hx

theorem stdAlphabet_props :
    ∀ c ∈ stdAlphabetChars,
      stdToUrlChar c ≠ '='
      ∧ urlToStdChar (stdToUrlChar c) = c
      ∧ c ≠ '='
      ∧ stdToUrlChar c ≠ '%'
      ∧ stdToUrlChar c ≠ '+'
      ∧ stdToUrlChar c ≠ '/'
      ∧ stdToUrlChar c ≠ '.'
      ∧ ((stdToUrlChar c).isAlpha ∨ (stdToUrlChar c).isDigit
          ∨ stdToUrlChar c = '-' ∨ stdToUrlChar c = '_')
      ∧ isURIUnreserved (stdToUrlChar c) = true := by
  decide

theorem stdChar_props (n : Nat) :
    stdToUrlChar (stdChar n) ≠ '='
    ∧ urlToStdChar (stdToUrlChar (stdChar n)) = stdChar n
    ∧ stdChar n ≠ '='
    ∧ stdToUrlChar (stdChar n) ≠ '%'
    ∧ stdToUrlChar (stdChar n) ≠ '+'
    ∧ stdToUrlChar (stdChar n) ≠ '/'
    ∧ stdToUrlChar (stdChar n) ≠ '.'
    ∧ ((stdToUrlChar (stdChar n)).isAlpha ∨ (stdToUrlChar (stdChar n)).isDigit
        ∨ stdToUrlChar (stdChar n) = '-' ∨ stdToUrlChar (stdChar n) = '_')
    ∧ isURIUnreserved (stdToUrlChar (stdChar n)) = true :=
  stdAlphabet_props (stdChar n) (stdChar_mem n)

theorem stdCharToSextet_stdChar (n : Nat) (h : n < 64) : stdCharToSextet (stdChar n) = some n :=
  (by decide : ∀ m, m < 64 → stdCharToSextet (stdChar m) = some m) n h

theorem stdToUrlChar_eq : stdToUrlChar '=' = '=' := rfl

theorem b64Sextets_lt (b : Bytes) :
    (∀ x ∈ b, x < 256) → ∀ s ∈ b64Sextets b, s < 64 := by
  induction b using chunk3_induction with
  | h0 => intro _ s hs; simp [b64Sextets] at hs
  | h1 a =>
      intro h s hs
      have ha : a < 256 := h a (by simp)
      simp [b64Sextets] at hs
      rcases hs with rfl | rfl <;> omega
  | h2 a b =>
      intro h s hs
      have ha : a < 256 := h a (by simp)
      have hb : b < 256 := h b (by simp)
      simp [b64Sextets] at hs
      rcases hs with rfl | rfl | rfl <;> omega
  | h3 a b c rest ih =>
      intro h s hs
      have ha : a < 256 := h a (by simp)
      have hb : b < 256 := h b (by simp)
      have hc : c < 256 := h c (by simp)
      simp [b64Sextets] at hs
      rcases hs with rfl | rfl | rfl | rfl | hs
      · omega
      · omega
      · omega
      · omega
      · exact ih (fun x hx => h x (by simp [hx])) s hs

theorem b64Sextets_mod (b : Bytes) : (b64Sextets b).length % 4 ≠ 1 := by
  induction b using chunk3_induction with
  | h0 => simp [b64Sextets]
  | h1 a => simp [b64Sextets]
  | h2 a b => simp [b64Sextets]
  | h3 a b c rest ih => simp [b64Sextets]; omega

theorem b64Sextets_ne_nil : ∀ (b : Bytes), b ≠ [] → b64Sextets b ≠ []
  | [], h => absurd rfl h
  | [_], _ => by simp [b64Sextets]
  | [_, _], _ => by simp [b64Sextets]
  | _ :: _ :: _ :: _, _ => by simp [b64Sextets]

theorem b64DecodeCore_b64Sextets (b : Bytes) :
    (∀ x ∈ b, x < 256) → b64DecodeCore (b64Sextets b) = b := by
  induction b using chunk3_induction with
  | h0 => intro _; rfl
  | h1 a =>
      intro h
      have ha : a < 256 := h a (by simp)
      simp [b64Sextets, b64DecodeCore]
      omega
  | h2 a b =>
      intro h
      have ha : a < 256 := h a (by simp)
      have hb : b < 256 := h b (by simp)
      simp [b64Sextets, b64DecodeCore]
      constructor <;> omega
  | h3 a b c rest ih =>
      intro h
      have ha : a < 256 := h a (by simp)
      have hb : b < 256 := h b (by simp)
      have hc : c < 256 := h c (by simp)
      have ih2 := ih (fun x hx => h x (by simp [hx]))
      simp [b64Sextets, b64DecodeCore, ih2]
      refine ⟨?_, ?_, ?_⟩ <;> omega

theorem btoa_url_filter (b : Bytes) :
    ((btoaChars b).map stdToUrlChar).filter (fun c => c ≠ '=')
      = (b64Sextets b).map (fun n => stdToUrlChar (stdChar n)) := by
  induction b using chunk3_induction with
  | h0 => rfl
  | h1 a =>
      simp [btoaChars, b64Sextets, stdToUrlChar_eq,
        (stdChar_props (a / 4)).1, (stdChar_props (a % 4 * 16)).1]
  | h2 a b =>
      simp [btoaChars, b64Sextets, stdToUrlChar_eq, (stdChar_props (a / 4)).1,
        (stdChar_props (a % 4 * 16 + b / 16)).1, (stdChar_props (b % 16 * 4)).1]
  | h3 a b c rest ih =>
      simp [btoaChars, b64Sextets, List.filter_append, (stdChar_props (a / 4)).1,
        (stdChar_props (a % 4 * 16 + b / 16)).1, (stdChar_props (b % 16 * 4 + c / 64)).1,
        (stdChar_props (c % 64)).1]
      simpa using ih

theorem percentDecode_of_no_pct : ∀ (cs : List Char), (∀ c ∈ cs, c ≠ '%') →
    percentDecode cs = some cs
  | [], _ => rfl
  | c :: rest, h => by
      have hc : ¬ (c = '%') := h c (List.mem_cons_self _ _)
      have ih := percentDecode_of_no_pct rest (fun d hd => h d (List.mem_cons_of_mem _ hd))
      match rest with
      | [] => simp [percentDecode, hc, ih]
      | [d] => simp [percentDecode, hc, ih]
      | d1 :: d2 :: tl => simp [percentDecode, hc, ih]

theorem decodeSextetChars_map_stdChar : ∀ (l : List Nat), (∀ s ∈ l, s < 64) →
    decodeSextetChars (l.map stdChar) = some l
  | [], _ => rfl
  | s :: t, h => by
      have hs := stdCharToSextet_stdChar s (h s (List.mem_cons_self _ _))
      have ih := decodeSextetChars_map_stdChar t (fun d hd => h d (List.mem_cons_of_mem _ hd))
      simp [decodeSextetChars, hs, ih]

theorem dropPadding_append (X : List Char) (hX : ∀ c ∈ X, c ≠ '=') :
    ∀ k, k ≤ 2 → dropPadding (X ++ List.replicate k '=') = X := by
  intro k hk
  interval_cases k
  · simp only [List.replicate, List.append_nil]
    unfold dropPadding
    cases hrev : X.reverse with
    | nil => rfl
    | cons c1 tl =>
        have hc1 : c1 ∈ X := by
          rw [← List.mem_reverse, hrev]; exact List.mem_cons_self _ _
        have h1 : ¬ (c1 = '=') := hX c1 hc1
        cases tl with
        | nil => simp [h1]
        | cons c2 tl2 => simp [h1]
  · have hrw : (X ++ List.replicate 1 '=').reverse = '=' :: X.reverse := by
      simp
    unfold dropPadding
    rw [hrw]
    cases hrev : X.reverse with
    | nil =>
        have hXnil : X = [] := by
          have := congrArg List.reverse hrev
          simpa using this
        simp [hXnil]
    | cons c2 tl =>
        have hc2 : c2 ∈ X := by
          rw [← List.mem_reverse, hrev]; exact List.mem_cons_self _ _
        have h2 : ¬ (c2 = '=') := hX c2 hc2
        have hback : (c2 :: tl).reverse = X := by
          rw [← hrev]; exact List.reverse_reverse X
        simp [h2, hback]
  · have hrw : (X ++ List.replicate 2 '=').reverse = '=' :: '=' :: X.reverse := by
      simp
    unfold dropPadding
    rw [hrw]
    simp

theorem splitOnDot_no_dot : ∀ (cs : List Char), '.' ∉ cs → splitOnDot cs = [cs]
  | [], _ => rfl
  | c :: rest, h => by
      have hc : ¬ (c = '.') := fun he => h (by rw [← he]; exact List.mem_cons_self _ _)
      have ih := splitOnDot_no_dot rest (fun hd => h (List.mem_cons_of_mem _ hd))
      simp [splitOnDot, hc, ih]

theorem splitOnDot_append : ∀ (a : List Char), '.' ∉ a → ∀ (b : List Char), '.' ∉ b →
    splitOnDot (a ++ '.' :: b) = [a, b]
  | [], _, b, hb => by simp [splitOnDot, splitOnDot_no_dot b hb]
  | c :: rest, ha, b, hb => by
      have hc : ¬ (c = '.') := fun he => ha (by rw [← he]; exact List.mem_cons_self _ _)
      have ih := splitOnDot_append rest (fun hd => ha (List.mem_cons_of_mem _ hd)) b hb
      simp [splitOnDot, hc, ih]

theorem uriComponentEncode_id : ∀ (cs : List Char), (∀ c ∈ cs, isURIUnreserved c = true) →
    uriComponentEncode cs = cs
  | [], _ => rfl
  | c :: rest, h => by
      have hc := h c (List.mem_cons_self _ _)
      have ih := uriComponentEncode_id rest (fun d hd => h d (List.mem_cons_of_mem _ hd))
      simp only [uriComponentEncode] at ih ⊢
      simp [List.flatMap_cons, hc, ih]

theorem bytesToBase64_data (b : Bytes) :
    (bytesToBase64 b).data = (b64Sextets b).map (fun n => stdToUrlChar (stdChar n)) :=
  btoa_url_filter b

theorem base64_roundtrip (b : Bytes) (hb : b ≠ []) (h256 : ∀ x ∈ b, x < 256) :
    base64ToBytes (bytesToBase64 b) = some b := by
  have hdata := bytesToBase64_data b
  have hnopct : ∀ c ∈ (b64Sextets b).map (fun n => stdToUrlChar (stdChar n)), c ≠ '%' := by
    intro c hc
    obtain ⟨n, _, rfl⟩ := List.mem_map.mp hc
    exact (stdChar_props n).2.2.2.1
  have hne : (b64Sextets b).map (fun n => stdToUrlChar (stdChar n)) ≠ [] := by
    simp [b64Sextets_ne_nil b hb]
  have hmapmap : ((b64Sextets b).map (fun n => stdToUrlChar (stdChar n))).map urlToStdChar
      = (b64Sextets b).map stdChar := by
    rw [List.map_map]
    exact List.map_congr_left (fun n _ => (stdChar_props n).2.1)
  have hmod1 : (b64Sextets b).length % 4 ≠ 1 := b64Sextets_mod b
  have hSne : ∀ c ∈ (b64Sextets b).map stdChar, c ≠ '=' := by
    intro c hc
    obtain ⟨n, _, rfl⟩ := List.mem_map.mp hc
    exact (stdChar_props n).2.2.1
  unfold base64ToBytes
  rw [hdata, if_neg hne, percentDecode_of_no_pct _ hnopct, Option.some_bind, hmapmap]
  have hlen0 : ((b64Sextets b).map stdChar
      ++ List.replicate ((4 - ((b64Sextets b).map stdChar).length % 4) % 4) '=').length % 4
      = 0 := by
    simp only [List.length_append, List.length_replicate, List.length_map]
    omega
  have hk2 : (4 - ((b64Sextets b).map stdChar).length % 4) % 4 ≤ 2 := by
    rw [List.length_map]
    omega
  unfold atobBytes
  rw [if_neg (fun hcon => hcon hlen0), dropPadding_append _ hSne _ hk2,
    if_neg (by rw [List.length_map]; exact hmod1),
    decodeSextetChars_map_stdChar _ (b64Sextets_lt b h256)]
  simp [b64DecodeCore_b64Sextets b h256]

/-! ### Helper lemmas for the manifest store -/

theorem mem_insertByUploadedAt (x y : EncryptedFileInfo) (l : List EncryptedFileInfo) :
    x ∈ insertByUploadedAt y l ↔ x = y ∨ x ∈ l := by
  induction l with
  | nil => simp [insertByUploadedAt]
  | cons a t ih =>
      by_cases h : a.uploadedAt ≤ y.uploadedAt
      · simp [insertByUploadedAt, h, ih]
      · simp [insertByUploadedAt, h, ih]
        tauto

theorem mem_sortByUploadedAt (x : EncryptedFileInfo) (l : List EncryptedFileInfo) :
    x ∈ sortByUploadedAt l ↔ x ∈ l := by
  induction l with
  | nil => simp [sortByUploadedAt]
  | cons a t ih => simp [sortByUploadedAt, mem_insertByUploadedAt, ih]

theorem mem_updateFirst (f : EncryptedFileInfo) (g : EncryptedFileInfo → EncryptedFileInfo) :
    ∀ (l : List EncryptedFileInfo), f ∈ l → (l.map (fun y => y.fileId)).Nodup →
      ∀ x, (x ∈ updateFirst (fun y => decide (y.fileId = f.fileId)) g l ↔
        x = g f ∨ (x ∈ l ∧ x.fileId ≠ f.fileId))
  | [], hf, _, _ => absurd hf (List.not_mem_nil f)
  | a :: t, hf, hnd, x => by
      rw [List.map_cons, List.nodup_cons] at hnd
      obtain ⟨hna, hnt⟩ := hnd
      by_cases ha : a.fileId = f.fileId
      · have haf : a = f := by
          rcases List.mem_cons.mp hf with h | h
          · exact h.symm
          · exact absurd (ha ▸ List.mem_map_of_mem (fun y => y.fileId) h) hna
        subst haf
        have hred : updateFirst (fun y => decide (y.fileId = a.fileId)) g (a :: t) = g a :: t := by
          simp [updateFirst]
        rw [hred]
        simp only [List.mem_cons]
        constructor
        · rintro (rfl | hx)
          · exact Or.inl rfl
          · refine Or.inr ⟨Or.inr hx, fun he => hna ?_⟩
            exact he ▸ List.mem_map_of_mem (fun y => y.fileId) hx
        · rintro (rfl | ⟨rfl | hx, hne⟩)
          · exact Or.inl rfl
          · exact absurd rfl hne
          · exact Or.inr hx
      · have hft : f ∈ t := by
          rcases List.mem_cons.mp hf with h | h
          · exact absurd (congrArg (fun y => y.fileId) h).symm ha
          · exact h
        have ih := mem_updateFirst f g t hft hnt x
        have hred : updateFirst (fun y => decide (y.fileId = f.fileId)) g (a :: t)
            = a :: updateFirst (fun y => decide (y.fileId = f.fileId)) g t := by
          simp [updateFirst, ha]
        rw [hred]
        simp only [List.mem_cons]
        rw [ih]
        constructor
        · rintro (rfl | h1 | ⟨h2, h3⟩)
          · exact Or.inr ⟨Or.inl rfl, ha⟩
          · exact Or.inl h1
          · exact Or.inr ⟨Or.inr h2, h3⟩
        · rintro (h1 | ⟨rfl | h2, h3⟩)
          · exact Or.inr (Or.inl h1)
          · exact Or.inl rfl
          · exact Or.inr (Or.inr ⟨h2, h3⟩)

theorem find?_isSome_of_mem (f : EncryptedFileInfo) :
    ∀ (l : List EncryptedFileInfo), f ∈ l →
      ∃ w, l.find? (fun y => decide (y.fileId = f.fileId)) = some w
  | [], hf => absurd hf (List.not_mem_nil f)
  | a :: t, hf => by
      by_cases ha : a.fileId = f.fileId
      · exact ⟨a, by simp [List.find?, ha]⟩
      · have hft : f ∈ t := by
          rcases List.mem_cons.mp hf with h | h
          · exact absurd (congrArg (fun y => y.fileId) h).symm ha
          · exact h
        obtain ⟨w, hw⟩ := find?_isSome_of_mem f t hft
        exact ⟨w, by simp [List.find?, ha, hw]⟩

theorem find?_filter_ne (k k2 : String) (h : k2 ≠ k) :
    ∀ (r : Remote),
      (r.filter (fun p => p.1 ≠ k)).find? (fun p => decide (p.1 = k2))
        = r.find? (fun p => decide (p.1 = k2))
  | [] => rfl
  | a :: t => by
      by_cases ha : a.1 = k
      · have ha2 : ¬ (a.1 = k2) := fun he => h (by rw [← he]; exact ha)
        rw [List.filter_cons_of_neg (by simp [ha]),
          List.find?_cons_of_neg _ (by simp [ha2]), find?_filter_ne k k2 h t]
      · rw [List.filter_cons_of_pos (by simp [ha])]
        by_cases ha2 : a.1 = k2
        · rw [List.find?_cons_of_pos _ (by simp [ha2]), List.find?_cons_of_pos _ (by simp [ha2])]
        · rw [List.find?_cons_of_neg _ (by simp [ha2]),
            List.find?_cons_of_neg _ (by simp [ha2]), find?_filter_ne k k2 h t]

theorem getRemote_putRemote (r : Remote) (k : String) (v : RemoteObj) (k2 : String) :
    getRemote (putRemote r k v) k2 = if k2 = k then some v else getRemote r k2 := by
  by_cases h : k2 = k
  · subst h
    simp only [getRemote, putRemote]
    rw [List.find?_cons_of_pos _ (by simp)]
    simp
  · simp only [getRemote, putRemote]
    rw [List.find?_cons_of_neg _ (by simpa using Ne.symm h),
      find?_filter_ne k k2 h r, if_neg h]

theorem filesPath_ne_MANIFEST_KEY (s : String) : filesPath s ≠ MANIFEST_KEY := by
  intro h
  obtain ⟨cs⟩ := s
  have h2 : ("files/" ++ String.mk cs).data = MANIFEST_KEY.data := congrArg String.data h
  simp [MANIFEST_KEY, String.append] at h2

theorem addCopySuffixChars_length (cs : List Char) :
    (addCopySuffixChars cs).length = cs.length + 7 := by
  unfold addCopySuffixChars
  cases hidx : (cs.reverse.findIdx? (fun c => decide (c = '.'))).map (fun k => cs.length - 1 - k) with
  | none => simp
  | some i => simp [List.length_take, List.length_drop]; omega

theorem addCopySuffix_ne (s : String) : addCopySuffix s ≠ s := by
  intro h
  have h2 : (addCopySuffixChars s.data).length = s.data.length :=
    congrArg (fun t => t.data.length) h
  rw [addCopySuffixChars_length] at h2
  omega

/-! ### Claim theorems about the manifest store -/

/-- Claim C6: every mutation of the collection store invoked while the store
is locked (no decrypted manifest or no master key in memory) fails with the
not-unlocked error before performing any change: the returned state, and
with it the in-memory manifest, the session cache and the remote store, is
exactly the input state. -/
theorem locked_mutations_reject (st : StoreState)
    (h : st.manifestCache = none ∨ st.masterKeyCache = false) :
    (∀ f now up, addFileToManifest st f now up = (st, Except.error StoreErr.notUnlocked))
    ∧ (∀ fid now up, removeFileFromManifest st fid now up = (st, Except.error StoreErr.notUnlocked))
    ∧ (∀ fids now up, removeFilesFromManifest st fids now up = (st, Except.error StoreErr.notUnlocked))
    ∧ (∀ fid nm now up, renameFile st fid nm now up = (st, Except.error StoreErr.notUnlocked))
    ∧ (∀ gid nm now up, renameFolder st gid nm now up = (st, Except.error StoreErr.notUnlocked))
    ∧ (∀ fid tgt now up, moveFileToFolder st fid tgt now up = (st, Except.error StoreErr.notUnlocked))
    ∧ (∀ fids tgt now up, moveFilesToFolder st fids tgt now up = (st, Except.error StoreErr.notUnlocked))
    ∧ (∀ fid now up, toggleFileFavorite st fid now up = (st, Except.error StoreErr.notUnlocked))
    ∧ (∀ nm pid col nid now up, createFolder st nm pid col nid now up = (st, Except.error StoreErr.notUnlocked))
    ∧ (∀ gid dc now up, deleteFolder st gid dc now up = (st, Except.error StoreErr.notUnlocked))
    ∧ (∀ fids tgt gen now up, copyFilesToFolder st fids tgt gen now up = (st, Except.error StoreErr.notUnlocked)) := by
  refine ⟨?_, ?_, ?_, ?_, ?_, ?_, ?_, ?_, ?_, ?_, ?_⟩ <;> intros <;>
    rcases h with h | h <;> cases hm : st.manifestCache <;>
      simp_all [addFileToManifest, removeFileFromManifest, removeFilesFromManifest,
        renameFile, renameFolder, moveFileToFolder, moveFilesToFolder, toggleFileFavorite,
        createFolder, deleteFolder, copyFilesToFolder]

theorem locked_mutations_reject_witness :
    (StoreState.mk none false none []).manifestCache = none ∧
      (∀ f now up, addFileToManifest (StoreState.mk none false none []) f now up
        = (StoreState.mk none false none [], Except.error StoreErr.notUnlocked)) :=
  ⟨rfl, (locked_mutations_reject (StoreState.mk none false none []) (Or.inl rfl)).1⟩

/-- Claim C2 is refuted by this concrete run: with an unlocked store holding
an empty manifest, adding a file record whose upload is aborted leaves the
in-memory manifest changed (the record is present), so the collection is not
as it was before the aborted step. -/
theorem addFileToManifest_abort_counterexample :
    (addFileToManifest
        (StoreState.mk (some (Manifest.mk 1 [] [] "c0" "u0")) true
          (some (Manifest.mk 1 [] [] "c0" "u0")) [])
        (EncryptedFileInfo.mk "f1" "a.txt" 1 1 "k" "n" "text/plain" "2024" none none false)
        "t2" false).2 = Except.error StoreErr.transport
    ∧ (addFileToManifest
        (StoreState.mk (some (Manifest.mk 1 [] [] "c0" "u0")) true
          (some (Manifest.mk 1 [] [] "c0" "u0")) [])
        (EncryptedFileInfo.mk "f1" "a.txt" 1 1 "k" "n" "text/plain" "2024" none none false)
        "t2" false).1.manifestCache ≠ some (Manifest.mk 1 [] [] "c0" "u0") := by
  constructor <;> decide

/-- Claim C2 (corrected): when the upload step of a mutation is aborted or
fails, the operation reports a transport error and the remote store and the
session cache are unchanged, but the in-memory collection retains the
applied mutation: the state is rolled forward, not reverted. -/
theorem mutate_abort_rolls_forward (st : StoreState) (m : Manifest)
    (hm : st.manifestCache = some m) (hk : st.masterKeyCache = true) :
    (∀ f now, addFileToManifest st f now false =
        ({ st with manifestCache := some { m with files := m.files ++ [f], updatedAt := now } },
         Except.error StoreErr.transport))
    ∧ (∀ (f : EncryptedFileInfo) (tgt : Option String) now,
        m.files.find? (fun y => decide (y.fileId = f.fileId)) = some f →
        moveFileToFolder st f.fileId tgt now false =
          ({ st with manifestCache := some { m with
              files := updateFirst (fun y => decide (y.fileId = f.fileId))
                         (fun y => { y with folderId := tgt }) m.files,
              updatedAt := now } },
           Except.error StoreErr.transport)) := by
  constructor
  · intro f now
    simp [addFileToManifest, hm, hk]
  · intro f tgt now hfind
    simp [moveFileToFolder, hm, hk, hfind]

theorem mutate_abort_rolls_forward_witness :
    (StoreState.mk (some (Manifest.mk 1 [] [] "c0" "u0")) true
        (some (Manifest.mk 1 [] [] "c0" "u0")) []).manifestCache
      = some (Manifest.mk 1 [] [] "c0" "u0") ∧
    addFileToManifest
      (StoreState.mk (some (Manifest.mk 1 [] [] "c0" "u0")) true
        (some (Manifest.mk 1 [] [] "c0" "u0")) [])
      (EncryptedFileInfo.mk "f1" "a.txt" 1 1 "k" "n" "text/plain" "2024" none none false)
      "t2" false
      = (StoreState.mk
          (some (Manifest.mk 1
            [EncryptedFileInfo.mk "f1" "a.txt" 1 1 "k" "n" "text/plain" "2024" none none false]
            [] "c0" "t2"))
          true (some (Manifest.mk 1 [] [] "c0" "u0")) [],
         Except.error StoreErr.transport) :=
  ⟨rfl,
   (mutate_abort_rolls_forward
      (StoreState.mk (some (Manifest.mk 1 [] [] "c0" "u0")) true
        (some (Manifest.mk 1 [] [] "c0" "u0")) [])
      (Manifest.mk 1 [] [] "c0" "u0") rfl rfl).1
     (EncryptedFileInfo.mk "f1" "a.txt" 1 1 "k" "n" "text/plain" "2024" none none false) "t2"⟩

/-- Claim C4 is refuted in its second half by this concrete run: moving the
only file (which sits at the root) into a folder id that does not exist does
not reject the operation, and the file is not visible at the root either; it
is listed only under the dangling id. -/
theorem moveFileToFolder_nonexistent_counterexample :
    (moveFileToFolder
        (StoreState.mk (some (Manifest.mk 1
          [EncryptedFileInfo.mk "f1" "a.txt" 1 1 "k" "n" "mt" "2024" none none false]
          [] "c" "u")) true none [])
        "f1" (some "ghost") "t" true).2 = Except.ok ()
    ∧ ((getFilesInFolder (moveFileToFolder
        (StoreState.mk (some (Manifest.mk 1
          [EncryptedFileInfo.mk "f1" "a.txt" 1 1 "k" "n" "mt" "2024" none none false]
          [] "c" "u")) true none [])
        "f1" (some "ghost") "t" true).1 none).map (fun f => f.fileId)) = []
    ∧ ((getFilesInFolder (moveFileToFolder
        (StoreState.mk (some (Manifest.mk 1
          [EncryptedFileInfo.mk "f1" "a.txt" 1 1 "k" "n" "mt" "2024" none none false]
          [] "c" "u")) true none [])
        "f1" (some "ghost") "t" true).1 (some "ghost")).map (fun f => f.fileId)) = ["f1"] := by
  refine ⟨?_, ?_, ?_⟩ <;> decide

/-- Claim C4 (corrected): with an unlocked store holding a file record with
a unique id, moving that file to any target succeeds and afterwards the file
is listed in exactly the target listing: the target folder listing includes
it and every other listing, including the root and the previous folder,
excludes it.  In particular a move to a nonexistent folder id is not
rejected and leaves the file visible nowhere except under the dangling
id. -/
theorem moveFileToFolder_listing (st : StoreState) (m : Manifest) (f : EncryptedFileInfo)
    (target : Option String) (now : String)
    (hm : st.manifestCache = some m) (hk : st.masterKeyCache = true)
    (hf : f ∈ m.files) (hnd : (m.files.map (fun y => y.fileId)).Nodup) :
    (moveFileToFolder st f.fileId target now true).2 = Except.ok ()
    ∧ (∀ q : Option String,
        (∃ x ∈ getFilesInFolder (moveFileToFolder st f.fileId target now true).1 q,
            x.fileId = f.fileId) ↔ q = target) := by
  obtain ⟨w, hw⟩ := find?_isSome_of_mem f m.files hf
  refine ⟨by simp [moveFileToFolder, hm, hk, hw], ?_⟩
  intro q
  simp only [moveFileToFolder, hm, hk, hw, if_true]
  simp only [getFilesInFolder, getManifest]
  constructor
  · rintro ⟨x, hx, hxid⟩
    rw [mem_sortByUploadedAt, List.mem_filter] at hx
    obtain ⟨hxmem, hxq⟩ := hx
    rcases (mem_updateFirst f (fun y => { y with folderId := target }) m.files hf hnd x).mp
        hxmem with hx1 | ⟨_, hx2⟩
    · subst hx1
      have h2 : target = q := by simpa using hxq
      exact h2.symm
    · exact absurd hxid hx2
  · rintro rfl
    refine ⟨{ f with folderId := q }, ?_, rfl⟩
    rw [mem_sortByUploadedAt, List.mem_filter]
    refine ⟨(mem_updateFirst f (fun y => { y with folderId := q }) m.files hf hnd _).mpr
      (Or.inl rfl), by simp⟩

theorem moveFileToFolder_listing_witness :
    ((StoreState.mk (some (Manifest.mk 1
        [EncryptedFileInfo.mk "f1" "a.txt" 1 1 "k" "n" "mt" "2024" none none false]
        [Folder.mk "F" "docs" none "c" none] "c" "u")) true none []).manifestCache
      = some (Manifest.mk 1
        [EncryptedFileInfo.mk "f1" "a.txt" 1 1 "k" "n" "mt" "2024" none none false]
        [Folder.mk "F" "docs" none "c" none] "c" "u"))
    ∧ ((moveFileToFolder
        (StoreState.mk (some (Manifest.mk 1
          [EncryptedFileInfo.mk "f1" "a.txt" 1 1 "k" "n" "mt" "2024" none none false]
          [Folder.mk "F" "docs" none "c" none] "c" "u")) true none [])
        (EncryptedFileInfo.mk "f1" "a.txt" 1 1 "k" "n" "mt" "2024" none none false).fileId
        (some "F") "t" true).2 = Except.ok ()
      ∧ (∀ q : Option String,
          (∃ x ∈ getFilesInFolder (moveFileToFolder
            (StoreState.mk (some (Manifest.mk 1
              [EncryptedFileInfo.mk "f1" "a.txt" 1 1 "k" "n" "mt" "2024" none none false]
              [Folder.mk "F" "docs" none "c" none] "c" "u")) true none [])
            (EncryptedFileInfo.mk "f1" "a.txt" 1 1 "k" "n" "mt" "2024" none none false).fileId
            (some "F") "t" true).1 q,
              x.fileId = (EncryptedFileInfo.mk "f1" "a.txt" 1 1 "k" "n" "mt" "2024"
                none none false).fileId) ↔ q = some "F")) :=
  ⟨rfl,
   moveFileToFolder_listing
     (StoreState.mk (some (Manifest.mk 1
        [EncryptedFileInfo.mk "f1" "a.txt" 1 1 "k" "n" "mt" "2024" none none false]
        [Folder.mk "F" "docs" none "c" none] "c" "u")) true none [])
     (Manifest.mk 1
        [EncryptedFileInfo.mk "f1" "a.txt" 1 1 "k" "n" "mt" "2024" none none false]
        [Folder.mk "F" "docs" none "c" none] "c" "u")
     (EncryptedFileInfo.mk "f1" "a.txt" 1 1 "k" "n" "mt" "2024" none none false)
     (some "F") "t" rfl rfl (by decide) (by decide)⟩

/-- Claim C7: copying an existing file record produces a new record whose
content key and nonce equal the originals (the ciphertext is duplicated
byte-for-byte under the new storage path, never re-encrypted), whose
identifier is the freshly generated one, and whose display name carries the
copy suffix exactly when the target folder equals the source folder. -/
theorem copyFilesToFolder_single (st : StoreState) (m : Manifest) (orig : EncryptedFileInfo)
    (target : Option String) (idGen : Nat → String) (now : String) (b : Bytes)
    (hm : st.manifestCache = some m) (hk : st.masterKeyCache = true)
    (hfind : m.files.find? (fun y => decide (y.fileId = orig.fileId)) = some orig)
    (hblob : getRemote st.remote (filesPath orig.fileId) = some (RemoteObj.blob b)) :
    copyFilesToFolder st [orig.fileId] target idGen now true
      = ({ st with
           manifestCache := some { m with
                                   files := m.files ++ [copiedFile orig target (idGen 0) now],
                                   updatedAt := now },
           remote := putRemote (putRemote st.remote (filesPath (idGen 0)) (RemoteObj.blob b))
                       MANIFEST_KEY
                       (RemoteObj.encManifest { m with
                                                files := m.files
                                                  ++ [copiedFile orig target (idGen 0) now],
                                                updatedAt := now }),
           sessionCache := some { m with
                                  files := m.files ++ [copiedFile orig target (idGen 0) now],
                                  updatedAt := now } }, Except.ok [idGen 0])
    ∧ (copiedFile orig target (idGen 0) now).keyBase64 = orig.keyBase64
    ∧ (copiedFile orig target (idGen 0) now).nonceBase64 = orig.nonceBase64
    ∧ (copiedFile orig target (idGen 0) now).fileId = idGen 0
    ∧ ((copiedFile orig target (idGen 0) now).fileName = addCopySuffix orig.fileName
        ↔ target = orig.folderId)
    ∧ getRemote (copyFilesToFolder st [orig.fileId] target idGen now true).1.remote
        (filesPath (idGen 0)) = some (RemoteObj.blob b) := by
  have hloop : copyLoop target idGen now true [orig.fileId] m.files st.remote [] 0
      = (m.files ++ [copiedFile orig target (idGen 0) now],
         putRemote st.remote (filesPath (idGen 0)) (RemoteObj.blob b), [idGen 0], 1, none) := by
    simp [copyLoop, hfind, hblob]
  have hrun : copyFilesToFolder st [orig.fileId] target idGen now true
      = ({ st with
           manifestCache := some { m with
                                   files := m.files ++ [copiedFile orig target (idGen 0) now],
                                   updatedAt := now },
           remote := putRemote (putRemote st.remote (filesPath (idGen 0)) (RemoteObj.blob b))
                       MANIFEST_KEY
                       (RemoteObj.encManifest { m with
                                                files := m.files
                                                  ++ [copiedFile orig target (idGen 0) now],
                                                updatedAt := now }),
           sessionCache := some { m with
                                  files := m.files ++ [copiedFile orig target (idGen 0) now],
                                  updatedAt := now } }, Except.ok [idGen 0]) := by
    simp [copyFilesToFolder, hm, hk, hloop]
  refine ⟨hrun, rfl, rfl, rfl, ?_, ?_⟩
  · by_cases hc : target = orig.folderId
    · simp [copiedFile, hc]
    · simp [copiedFile, hc, Ne.symm (addCopySuffix_ne orig.fileName)]
  · rw [hrun]
    simp only []
    rw [getRemote_putRemote, if_neg (filesPath_ne_MANIFEST_KEY (idGen 0)),
      getRemote_putRemote, if_pos rfl]

theorem copyFilesToFolder_single_witness :
    ((StoreState.mk (some (Manifest.mk 1
        [EncryptedFileInfo.mk "f1" "a" 1 1 "k" "n" "mt" "d" none none false]
        [] "c" "u")) true none [(filesPath "f1", RemoteObj.blob [5])]).manifestCache
      = some (Manifest.mk 1
        [EncryptedFileInfo.mk "f1" "a" 1 1 "k" "n" "mt" "d" none none false] [] "c" "u")
      ∧ (Manifest.mk 1
          [EncryptedFileInfo.mk "f1" "a" 1 1 "k" "n" "mt" "d" none none false]
          [] "c" "u").files.find?
            (fun y => decide (y.fileId
              = (EncryptedFileInfo.mk "f1" "a" 1 1 "k" "n" "mt" "d" none none false).fileId))
          = some (EncryptedFileInfo.mk "f1" "a" 1 1 "k" "n" "mt" "d" none none false)
      ∧ getRemote [(filesPath "f1", RemoteObj.blob [5])]
          (filesPath (EncryptedFileInfo.mk "f1" "a" 1 1 "k" "n" "mt" "d" none none false).fileId)
          = some (RemoteObj.blob [5]))
    ∧ (copyFilesToFolder
        (StoreState.mk (some (Manifest.mk 1
          [EncryptedFileInfo.mk "f1" "a" 1 1 "k" "n" "mt" "d" none none false]
          [] "c" "u")) true none [(filesPath "f1", RemoteObj.blob [5])])
        ["f1"] none (fun _ => "g0") "t" true).2 = Except.ok ["g0"] :=
  ⟨⟨rfl, by decide, by decide⟩, by
    rw [(copyFilesToFolder_single
        (StoreState.mk (some (Manifest.mk 1
          [EncryptedFileInfo.mk "f1" "a" 1 1 "k" "n" "mt" "d" none none false]
          [] "c" "u")) true none [(filesPath "f1", RemoteObj.blob [5])])
        (Manifest.mk 1
          [EncryptedFileInfo.mk "f1" "a" 1 1 "k" "n" "mt" "d" none none false] [] "c" "u")
        (EncryptedFileInfo.mk "f1" "a" 1 1 "k" "n" "mt" "d" none none false)
        none (fun _ => "g0") "t" [5] rfl rfl (by decide) (by decide)).1]⟩

/-- Claim C10 is refuted in one corner by this concrete run: for a folder
record whose own id is the deleted id and whose parentId is also that id,
deleteFolder removes it, so it is not the case that every folder record
whose parentId equals the deleted id is left entirely unchanged. -/
theorem deleteFolder_selfparent_counterexample :
    (Folder.mk "F" "loop" (some "F") "cr" none).parentId = some "F"
    ∧ (deleteFolder
        (StoreState.mk (some (Manifest.mk 1 []
          [Folder.mk "F" "loop" (some "F") "cr" none] "c" "u")) true none [])
        "F" false "t" true).2 = Except.ok []
    ∧ ((deleteFolder
        (StoreState.mk (some (Manifest.mk 1 []
          [Folder.mk "F" "loop" (some "F") "cr" none] "c" "u")) true none [])
        "F" false "t" true).1.manifestCache).map (fun mm => mm.folders) = some [] := by
  refine ⟨rfl, ?_, ?_⟩ <;> decide

/-- Claim C10 (corrected): deleteFolder removes exactly the folder records
whose id is the deleted id and touches only the files whose folderId equals
it (deleting them when deleteContents is set, otherwise moving them to the
root); every other folder record, in particular every subfolder whose
parentId equals the deleted id but whose own id differs, is kept entirely
unchanged, and afterwards no folder with the deleted id remains, so such
subfolders reference a parent id that no longer exists. -/
theorem deleteFolder_frame (st : StoreState) (m : Manifest) (folderId : String)
    (deleteContents : Bool) (now : String)
    (hm : st.manifestCache = some m) (hk : st.masterKeyCache = true) :
    ∃ m2,
      deleteFolder st folderId deleteContents now true
        = ({ st with
             manifestCache := some m2,
             remote := putRemote st.remote MANIFEST_KEY (RemoteObj.encManifest m2),
             sessionCache := some m2 },
           Except.ok (if deleteContents
             then (m.files.filter (fun f => f.folderId = some folderId)).map (fun f => f.fileId)
             else []))
      ∧ m2.folders = m.folders.filter (fun g => g.id ≠ folderId)
      ∧ m2.files = (if deleteContents
          then m.files.filter (fun f => f.folderId ≠ some folderId)
          else m.files.map (fun f =>
            if f.folderId = some folderId then { f with folderId := none } else f))
      ∧ (∀ g ∈ m.folders, g.id ≠ folderId → g ∈ m2.folders)
      ∧ (∀ g ∈ m2.folders, g.id ≠ folderId ∧ g ∈ m.folders) := by
  refine ⟨{ m with
      files := if deleteContents
        then m.files.filter (fun f => f.folderId ≠ some folderId)
        else m.files.map (fun f =>
          if f.folderId = some folderId then { f with folderId := none } else f),
      folders := m.folders.filter (fun g => g.id ≠ folderId),
      updatedAt := now }, ?_, rfl, rfl, ?_, ?_⟩
  · by_cases hdc : deleteContents <;> simp [deleteFolder, hm, hk, hdc]
  · intro g hg hne
    exact List.mem_filter.mpr ⟨hg, by simpa using hne⟩
  · intro g hg
    obtain ⟨h1, h2⟩ := List.mem_filter.mp hg
    exact ⟨by simpa using h2, h1⟩

theorem deleteFolder_frame_witness :
    ((StoreState.mk (some (Manifest.mk 1 []
        [Folder.mk "F" "top" none "c" none, Folder.mk "S" "sub" (some "F") "c" none]
        "c" "u")) true none []).manifestCache
      = some (Manifest.mk 1 []
        [Folder.mk "F" "top" none "c" none, Folder.mk "S" "sub" (some "F") "c" none] "c" "u"))
    ∧ (deleteFolder
        (StoreState.mk (some (Manifest.mk 1 []
          [Folder.mk "F" "top" none "c" none, Folder.mk "S" "sub" (some "F") "c" none]
          "c" "u")) true none [])
        "F" false "t" true).2 = Except.ok [] :=
  ⟨rfl, by
    obtain ⟨m2, hrun, -⟩ :=
      deleteFolder_frame
        (StoreState.mk (some (Manifest.mk 1 []
          [Folder.mk "F" "top" none "c" none, Folder.mk "S" "sub" (some "F") "c" none]
          "c" "u")) true none [])
        (Manifest.mk 1 []
          [Folder.mk "F" "top" none "c" none, Folder.mk "S" "sub" (some "F") "c" none] "c" "u")
        "F" false "t" rfl rfl
    rw [hrun]
    rfl⟩

/-! ### Claim theorems about the base64url transport encoding -/

/-- Claim C9 is refuted at the empty byte array: bytesToBase64 of the empty
array is the empty string, and base64ToBytes rejects a falsy argument, so
the round trip fails there instead of returning the empty array. -/
theorem base64_empty_counterexample :
    bytesToBase64 [] = "" ∧ base64ToBytes (bytesToBase64 []) = none
      ∧ (none : Option Bytes) ≠ some [] := by
  refine ⟨rfl, rfl, by decide⟩

/-- Claim C9 (corrected): for every nonempty byte array the decoder inverts
the encoder; the encoder output consists only of letters, digits, dash and
underscore (never plus, slash, the equality sign, the dot or the percent
sign); and a share token assembled as base64url of the salt, a dot, and
base64url of the ciphertext splits unambiguously on the dot and passes
through URL percent-encoding unchanged. -/
theorem base64url_spec :
    (∀ b : Bytes, b ≠ [] → (∀ x ∈ b, x < 256) → base64ToBytes (bytesToBase64 b) = some b)
    ∧ (∀ (b : Bytes) (c : Char), c ∈ (bytesToBase64 b).data →
        ((c.isAlpha ∨ c.isDigit ∨ c = '-' ∨ c = '_')
          ∧ c ≠ '+' ∧ c ≠ '/' ∧ c ≠ '=' ∧ c ≠ '.' ∧ c ≠ '%'))
    ∧ (∀ salt ct : Bytes,
        splitOnDot ((bytesToBase64 salt).data ++ '.' :: (bytesToBase64 ct).data)
          = [(bytesToBase64 salt).data, (bytesToBase64 ct).data]
        ∧ uriComponentEncode ((bytesToBase64 salt).data ++ '.' :: (bytesToBase64 ct).data)
          = (bytesToBase64 salt).data ++ '.' :: (bytesToBase64 ct).data) := by
  have hchar : ∀ (b : Bytes) (c : Char), c ∈ (bytesToBase64 b).data →
      ((c.isAlpha ∨ c.isDigit ∨ c = '-' ∨ c = '_')
        ∧ c ≠ '+' ∧ c ≠ '/' ∧ c ≠ '=' ∧ c ≠ '.' ∧ c ≠ '%'
        ∧ isURIUnreserved c = true) := by
    intro b c hc
    rw [bytesToBase64_data] at hc
    obtain ⟨n, _, rfl⟩ := List.mem_map.mp hc
    obtain ⟨p1, p2, p3, p4, p5, p6, p7, p8, p9⟩ := stdChar_props n
    exact ⟨p8, p5, p6, p1, p7, p4, p9⟩
  refine ⟨base64_roundtrip, ?_, ?_⟩
  · intro b c hc
    obtain ⟨q1, q2, q3, q4, q5, q6, _⟩ := hchar b c hc
    exact ⟨q1, q2, q3, q4, q5, q6⟩
  · intro salt ct
    have hs : '.' ∉ (bytesToBase64 salt).data :=
      fun hmem => (hchar salt '.' hmem).2.2.2.2.1 rfl
    have hc : '.' ∉ (bytesToBase64 ct).data :=
      fun hmem => (hchar ct '.' hmem).2.2.2.2.1 rfl
    refine ⟨splitOnDot_append _ hs _ hc, ?_⟩
    apply uriComponentEncode_id
    intro d hd
    rcases List.mem_append.mp hd with h1 | h1
    · exact (hchar salt d h1).2.2.2.2.2.2
    · rcases List.mem_cons.mp h1 with rfl | h2
      · decide
      · exact (hchar ct d h2).2.2.2.2.2.2

theorem base64url_spec_witness :
    (([0, 77, 255] : Bytes) ≠ [] ∧ ∀ x ∈ ([0, 77, 255] : Bytes), x < 256)
    ∧ base64ToBytes (bytesToBase64 [0, 77, 255]) = some [0, 77, 255] :=
  ⟨⟨by decide, by decide⟩, base64url_spec.1 [0, 77, 255] (by decide) (by decide)⟩

end CloudFiles
